import Mathlib

/-
Shallow embedding of the KetonAI chat widget front end.

The two components under verification are:
  * the Conversation State Controller, embodied by `handleSendMessage`
    and the inline success/failure continuation of its `fetch` call
    (embedded below as `completeFetch`), together with the surrounding
    React state hooks (`messages`, `inputValue`, `isTyping`, `showChat`,
    `logoVisible`), collected in `AppState`;
  * the Incremental Text Revealer, the `TypewriterText` component,
    embedded as `typewriterRun` / `typewriterTicks`.

Modelling decisions, each traceable to a source line:
  * `crypto.randomUUID()` produces a fresh identifier; freshness is the
    only property the code relies on, so ids are naturals drawn from a
    counter `nextId` carried in the state.
  * `new Date()` timestamps are naturals read from a clock field `now`.
  * JavaScript strings are Lean `String`s for the controller; the
    revealer works character-wise (`slice(0, idx)` / `.length`), so its
    text is a `List Char`, matching a JS string as a sequence of units.
  * `fetch` resolves with a response (status code plus body) whenever the
    HTTP exchange completes, regardless of status class, and rejects
    (throws) on network failure; `response.text()` can also throw.  The
    whole `try` block therefore observes either a status/body pair or an
    exception: `FetchOutcome`.
  * The asynchronous continuation after `await` is a separate atomic
    state transition on the single UI thread; in-flight requests are a
    list of `PendingRequest` records, and a `System` step either submits,
    edits the input field, or delivers one outcome to one pending request.
-/

namespace KetonAI

/-- One conversation turn, mirroring `interface Message` in the source:
`id`, `text`, `isUser`, `timestamp`. -/
structure Message where
  id : Nat
  text : String
  isUser : Bool
  timestamp : Nat
deriving DecidableEq, Repr

/-- The React state hooks of the `KetonAI` component that the message
lifecycle touches, plus the id counter and clock that model
`crypto.randomUUID()` and `new Date()`. -/
structure AppState where
  messages : List Message
  inputValue : String
  isTyping : Bool
  showChat : Bool
  logoVisible : Bool
  nextId : Nat
  now : Nat
deriving DecidableEq, Repr

/-- A request dispatched by `handleSendMessage` and not yet completed:
the reserved placeholder id and the user text sent as the POST body. -/
structure PendingRequest where
  placeholderId : Nat
  userText : String
deriving DecidableEq, Repr

/-- What the `try` block observes from `await fetch(...)` followed by
`await response.text()`: either both awaits succeed, yielding the HTTP
status code and the full body text, or an exception is raised somewhere
(network failure, aborted body read), landing in the `catch` block.
`fetch` itself does not reject on non-2xx statuses, so `ok` carries any
status. -/
inductive FetchOutcome where
  | ok (status : Nat) (body : String)
  | exn
deriving DecidableEq, Repr

/-- The fixed fallback text installed by the `catch` block. -/
def errorFallbackText : String :=
  "Oops! Something went wrong connecting to the server."

/-- JavaScript `String.prototype.trim`, used in the guard
`if (!inputValue.trim()) return;`: strip whitespace from both ends. -/
def jsTrim (s : String) : String :=
  ⟨((s.data.dropWhile Char.isWhitespace).reverse.dropWhile
      Char.isWhitespace).reverse⟩

/-- The synchronous prefix of `handleSendMessage`, up to and including
dispatching the `fetch`: the trimmed-empty guard, appending the user
message, clearing the input, revealing the chat pane, hiding the logo,
raising `isTyping`, and appending the empty placeholder with a freshly
generated id.  Returns the updated state and the dispatched request
(`none` when the guard rejects the input). -/
def handleSendMessage (s : AppState) : AppState × Option PendingRequest :=
  if jsTrim s.inputValue = "" then (s, none)
  else
    let userMessage : Message :=
      { id := s.nextId, text := s.inputValue, isUser := true, timestamp := s.now }
    let placeholderId : Nat := s.nextId + 1
    let s' : AppState :=
      { s with
        messages := s.messages ++
          [userMessage,
           { id := placeholderId, text := "", isUser := false, timestamp := s.now }],
        inputValue := "",
        showChat := true,
        logoVisible := false,
        isTyping := true,
        nextId := s.nextId + 2 }
    (s', some { placeholderId := placeholderId, userText := userMessage.text })

/-- The continuation of `handleSendMessage` after the `await`s: the tail
of the `try` block on success (replace the placeholder's text with the
body), the `catch` block on exception (replace it with
`errorFallbackText`), and the `finally` block (`setIsTyping(false)`) in
both cases.  The `fetch` response's status code is never inspected. -/
def completeFetch (s : AppState) (placeholderId : Nat) (outcome : FetchOutcome) :
    AppState :=
  let afterTry : AppState :=
    match outcome with
    | .ok _ fullText =>
      { s with
        messages := s.messages.map fun msg =>
          if msg.id = placeholderId then { msg with text := fullText } else msg }
    | .exn =>
      { s with
        messages := s.messages.map fun msg =>
          if msg.id = placeholderId then { msg with text := errorFallbackText }
          else msg }
  { afterTry with isTyping := false }

/-- The text a completed exchange installs into the placeholder: the
body on success (`fullText` in the source), the fixed fallback on
exception.  Factored out of `completeFetch` for stating lemmas; the
branches are word-for-word those of the `try`/`catch` blocks. -/
def responseTextOf : FetchOutcome → String
  | .ok _ body => body
  | .exn => errorFallbackText

/-- The component state together with the set of in-flight requests. -/
structure System where
  app : AppState
  pending : List PendingRequest
deriving DecidableEq, Repr

/-- The discrete events of the single UI thread: typing into the input
field, pressing send (`handleSendMessage`), and the event-loop delivering
the outcome of the `i`-th in-flight request to its continuation. -/
inductive Action where
  | setInput (v : String)
  | submit
  | complete (i : Nat) (outcome : FetchOutcome)
deriving DecidableEq, Repr

/-- One event-loop step. -/
def step (sys : System) (a : Action) : System :=
  match a with
  | .setInput v => { sys with app := { sys.app with inputValue := v } }
  | .submit =>
      let r := handleSendMessage sys.app
      { app := r.1, pending := sys.pending ++ r.2.toList }
  | .complete i outcome =>
      match sys.pending[i]? with
      | none => sys
      | some req =>
          { app := completeFetch sys.app req.placeholderId outcome,
            pending := sys.pending.eraseIdx i }

/-- The initial component state: every `useState` initialiser of the
source (`[]`, `""`, `false`, `false`, `true`), with the id counter and
clock at zero. -/
def init : System :=
  { app :=
      { messages := [], inputValue := "", isTyping := false,
        showChat := false, logoVisible := true, nextId := 0, now := 0 },
    pending := [] }

/-- Run a sequence of events from the initial state. -/
def run (acts : List Action) : System :=
  acts.foldl step init

/-- A concrete component state used to instantiate the theorems: the
initial state with `"hello"` typed into the input field. -/
def exHello : AppState :=
  { messages := [], inputValue := "hello", isTyping := false,
    showChat := false, logoVisible := true, nextId := 0, now := 0 }

/-- A concrete component state used to instantiate the theorems: the
initial state with a whitespace-only input field. -/
def exBlank : AppState :=
  { messages := [], inputValue := "   ", isTyping := false,
    showChat := false, logoVisible := true, nextId := 0, now := 0 }

/-- A concrete mid-conversation state used to instantiate the
completion theorems: one user message and one empty placeholder with
reserved id `1`, with the request outstanding. -/
def exAwaiting : System :=
  { app :=
      { messages :=
          [{ id := 0, text := "hello", isUser := true, timestamp := 0 },
           { id := 1, text := "", isUser := false, timestamp := 0 }],
        inputValue := "", isTyping := true, showChat := true,
        logoVisible := false, nextId := 2, now := 0 },
    pending := [{ placeholderId := 1, userText := "hello" }] }

/-! The Incremental Text Revealer (`TypewriterText`).  Its effect runs on
`fullText`, modelled as the JS string's character sequence.  The
`setInterval` body increments `idx`, displays `fullText.slice(0, idx)`,
and clears the interval once `idx >= fullText.length`. -/

/-- The emissions of the `setInterval` callback, entered with counter
value `idx` (the callback first increments, then displays the prefix,
then tests `idx >= fullText.length`).  Only called when `fullText` is
non-empty, so at least one tick fires. -/
def typewriterTicks (fullText : List Char) (idx : Nat) : List (List Char) :=
  if fullText.length ≤ idx + 1 then [fullText.take (idx + 1)]
  else fullText.take (idx + 1) :: typewriterTicks fullText (idx + 1)
termination_by fullText.length - idx
decreasing_by omega

/-- The full sequence of `displayed` states produced by one run of the
`TypewriterText` effect for a given `fullText`: the unconditional
`setDisplayed("")` reset, then — unless `fullText` is empty, in which
case the effect returns at once — the interval ticks from `idx = 0`.
The previous `displayed` value is an argument only to record that the
effect ignores it: the reset does not depend on prior state. -/
def typewriterRun (_prior : List Char) (fullText : List Char) :
    List (List Char) :=
  if fullText.isEmpty then [([] : List Char)]
  else ([] : List Char) :: typewriterTicks fullText 0

/-- The ticks from a counter value below `fullText.length` are exactly
the prefixes of lengths `idx + 1, …, fullText.length`.  The auxiliary
quantifier `n` is the fuel `fullText.length - idx` driving the
induction. -/
theorem typewriterTicks_eq_aux (fullText : List Char) :
    ∀ (n idx : Nat), fullText.length - idx = n → idx < fullText.length →
      typewriterTicks fullText idx =
        (List.range' (idx + 1) (fullText.length - idx)).map
          (fun k => fullText.take k) := by
  intro n
  induction n with
  | zero => intro idx hn h; omega
  | succ n ih =>
    intro idx hn h
    rw [typewriterTicks]
    by_cases hstop : fullText.length ≤ idx + 1
    · rw [if_pos hstop]
      have h1 : fullText.length - idx = 1 := by omega
      rw [h1, List.range'_one]
      simp
    · rw [if_neg hstop, ih (idx + 1) (by omega) (by omega)]
      have h2 : fullText.length - idx = (fullText.length - (idx + 1)) + 1 := by
        omega
      rw [h2, List.range'_succ]
      simp

/-- The ticks from counter value `idx < fullText.length` are exactly the
prefixes of lengths `idx + 1, …, fullText.length`. -/
theorem typewriterTicks_eq (fullText : List Char) (idx : Nat)
    (h : idx < fullText.length) :
    typewriterTicks fullText idx =
      (List.range' (idx + 1) (fullText.length - idx)).map
        (fun k => fullText.take k) :=
  typewriterTicks_eq_aux fullText (fullText.length - idx) idx rfl h

/-- One run of the revealer effect emits exactly the prefixes of
`fullText` of lengths `0, 1, …, fullText.length`, in that order, for any
prior displayed state. -/
theorem typewriterRun_eq (prior fullText : List Char) :
    typewriterRun prior fullText =
      (List.range (fullText.length + 1)).map (fun k => fullText.take k) := by
  unfold typewriterRun
  by_cases hemp : fullText.isEmpty
  · rw [if_pos hemp]
    rw [List.isEmpty_iff] at hemp
    subst hemp
    simp
  · rw [if_neg hemp]
    rw [List.isEmpty_iff] at hemp
    have hlen : 0 < fullText.length := List.length_pos.mpr hemp
    rw [typewriterTicks_eq fullText 0 hlen]
    rw [List.range_eq_range', List.range'_succ]
    simp

/-! Helper lemmas about the completion continuation, shared by the
claims below. -/

/-- Both the `try` tail and the `catch` block perform the same map over
the message list, differing only in the installed text. -/
theorem completeFetch_messages_eq (s : AppState) (pid : Nat)
    (o : FetchOutcome) :
    (completeFetch s pid o).messages =
      s.messages.map fun msg =>
        if msg.id = pid then { msg with text := responseTextOf o }
        else msg := by
  cases o <;> rfl

/-- The `finally` block lowers `isTyping` on every completion path. -/
theorem completeFetch_isTyping_eq (s : AppState) (pid : Nat)
    (o : FetchOutcome) :
    (completeFetch s pid o).isTyping = false := by
  cases o <;> rfl

/-- C1: for every input whose trimmed form is non-empty,
`handleSendMessage` appends exactly two messages in order — a User
message carrying the input verbatim (untrimmed), then an Assistant
placeholder with empty text and a freshly generated id (distinct from
every existing message id and from the new user message's id) — sets
`isTyping` to true and clears the input field.  The freshness hypothesis
`hids` is the id-counter invariant every reachable state satisfies. -/
theorem submit_appends_user_then_placeholder (s : AppState)
    (hne : jsTrim s.inputValue ≠ "")
    (hids : ∀ m ∈ s.messages, m.id < s.nextId) :
    ∃ userMsg asstMsg : Message,
      (handleSendMessage s).1.messages = s.messages ++ [userMsg, asstMsg] ∧
      userMsg.text = s.inputValue ∧
      userMsg.isUser = true ∧
      asstMsg.text = "" ∧
      asstMsg.isUser = false ∧
      asstMsg.id ≠ userMsg.id ∧
      (∀ m ∈ s.messages, m.id ≠ asstMsg.id) ∧
      (∀ m ∈ s.messages, m.id ≠ userMsg.id) ∧
      (handleSendMessage s).1.isTyping = true ∧
      (handleSendMessage s).1.inputValue = "" ∧
      (handleSendMessage s).2 =
        some { placeholderId := asstMsg.id, userText := s.inputValue } := by
  refine ⟨{ id := s.nextId, text := s.inputValue, isUser := true,
            timestamp := s.now },
          { id := s.nextId + 1, text := "", isUser := false,
            timestamp := s.now },
          ?_, rfl, rfl, rfl, rfl, by simp, ?_, ?_, ?_, ?_, ?_⟩ <;>
    simp [handleSendMessage, hne]
  · intro m hm
    have := hids m hm
    omega
  · intro m hm
    have := hids m hm
    omega

/-- C1 witness: instantiating the submission theorem at the concrete
state with `"hello"` in the input field. -/
theorem submit_appends_user_then_placeholder_witness :
    ∃ userMsg asstMsg : Message,
      (handleSendMessage exHello).1.messages =
        exHello.messages ++ [userMsg, asstMsg] ∧
      userMsg.text = exHello.inputValue ∧
      userMsg.isUser = true ∧
      asstMsg.text = "" ∧
      asstMsg.isUser = false ∧
      asstMsg.id ≠ userMsg.id ∧
      (∀ m ∈ exHello.messages, m.id ≠ asstMsg.id) ∧
      (∀ m ∈ exHello.messages, m.id ≠ userMsg.id) ∧
      (handleSendMessage exHello).1.isTyping = true ∧
      (handleSendMessage exHello).1.inputValue = "" ∧
      (handleSendMessage exHello).2 =
        some { placeholderId := asstMsg.id,
               userText := exHello.inputValue } :=
  submit_appends_user_then_placeholder exHello (by decide) (by decide)

/-- C8: for every input that trims to empty, `handleSendMessage` is a
no-op: the state is returned unchanged, no request is dispatched, and at
the system level the submit event leaves everything — messages and
pending requests included — exactly as it was. -/
theorem submit_rejects_blank (s : AppState) (pending : List PendingRequest)
    (h : jsTrim s.inputValue = "") :
    handleSendMessage s = (s, none) ∧
    step { app := s, pending := pending } Action.submit =
      { app := s, pending := pending } := by
  constructor
  · simp [handleSendMessage, h]
  · simp [step, handleSendMessage, h]

/-- C8 witness: instantiating the blank-rejection theorem at the
concrete state whose input field holds three spaces. -/
theorem submit_rejects_blank_witness :
    handleSendMessage exBlank = (exBlank, none) ∧
    step { app := exBlank, pending := [] } Action.submit =
      { app := exBlank, pending := [] } :=
  submit_rejects_blank exBlank [] (by decide)

/-- C2: when a request succeeds with body `r`, the completion handler
rewrites the message at the position of the placeholder matched by the
reserved id to carry text `r` (all other fields intact), keeps it at the
same index of a list of unchanged length, and lowers `isTyping`. -/
theorem success_fills_placeholder_in_place (s : AppState)
    (pid status : Nat) (r : String) (i : Nat) (m : Message)
    (hm : s.messages[i]? = some m) (hid : m.id = pid) :
    (completeFetch s pid (.ok status r)).messages[i]? =
      some { m with text := r } ∧
    (completeFetch s pid (.ok status r)).messages.length =
      s.messages.length ∧
    (completeFetch s pid (.ok status r)).isTyping = false := by
  refine ⟨?_, ?_, completeFetch_isTyping_eq s pid _⟩
  · rw [completeFetch_messages_eq, List.getElem?_map, hm]
    simp [hid, responseTextOf]
  · rw [completeFetch_messages_eq, List.length_map]

/-- C2 witness: instantiating the success theorem at the concrete
awaiting state, whose placeholder with reserved id `1` sits at index
`1`. -/
theorem success_fills_placeholder_in_place_witness :
    (completeFetch exAwaiting.app 1 (.ok 200 "hi there")).messages[1]? =
      some { id := 1, text := "hi there", isUser := false,
             timestamp := 0 } ∧
    (completeFetch exAwaiting.app 1 (.ok 200 "hi there")).messages.length =
      exAwaiting.app.messages.length ∧
    (completeFetch exAwaiting.app 1 (.ok 200 "hi there")).isTyping = false :=
  success_fills_placeholder_in_place exAwaiting.app 1 200 "hi there" 1
    { id := 1, text := "", isUser := false, timestamp := 0 }
    (by decide) (by decide)

/-- C3: every completion — success or failure — preserves the length of
the message list and, at every index, the message's id, origin and
timestamp; a message whose id differs from the reserved id is untouched
entirely.  `completeFetch` receives only the reserved id of its own
submission, so concurrent in-flight requests cannot disturb each other's
messages. -/
theorem completion_frame (s : AppState) (pid : Nat)
    (outcome : FetchOutcome) (i : Nat) :
    (completeFetch s pid outcome).messages.length = s.messages.length ∧
    ((completeFetch s pid outcome).messages[i]?).map Message.id =
      (s.messages[i]?).map Message.id ∧
    ((completeFetch s pid outcome).messages[i]?).map Message.isUser =
      (s.messages[i]?).map Message.isUser ∧
    ((completeFetch s pid outcome).messages[i]?).map Message.timestamp =
      (s.messages[i]?).map Message.timestamp ∧
    (∀ m, s.messages[i]? = some m → m.id ≠ pid →
      (completeFetch s pid outcome).messages[i]? = some m) := by
  rw [completeFetch_messages_eq, List.length_map]
  refine ⟨rfl, ?_, ?_, ?_, ?_⟩ <;>
    rw [List.getElem?_map] <;>
    cases hmi : s.messages[i]?
  case _ => rfl
  case _ m =>
    simp only [Option.map_some']
    split <;> rfl
  case _ => rfl
  case _ m =>
    simp only [Option.map_some']
    split <;> rfl
  case _ => rfl
  case _ m =>
    simp only [Option.map_some']
    split <;> rfl
  case _ => intro m hm; simp at hm
  case _ m =>
    intro m' hm' hne
    obtain rfl : m = m' := by simpa using hm'
    simp [hne]

/-- C3 witness: instantiating the frame theorem at the concrete
awaiting state, completing the request reserved for id `1` and reading
off index `0` (the user message, which is untouched). -/
theorem completion_frame_witness :
    (completeFetch exAwaiting.app 1 (.ok 200 "hi there")).messages.length =
      exAwaiting.app.messages.length ∧
    ((completeFetch exAwaiting.app 1 (.ok 200 "hi there")).messages[0]?).map
        Message.id = (exAwaiting.app.messages[0]?).map Message.id ∧
    ((completeFetch exAwaiting.app 1 (.ok 200 "hi there")).messages[0]?).map
        Message.isUser =
      (exAwaiting.app.messages[0]?).map Message.isUser ∧
    ((completeFetch exAwaiting.app 1 (.ok 200 "hi there")).messages[0]?).map
        Message.timestamp =
      (exAwaiting.app.messages[0]?).map Message.timestamp ∧
    (∀ m, exAwaiting.app.messages[0]? = some m → m.id ≠ 1 →
      (completeFetch exAwaiting.app 1 (.ok 200 "hi there")).messages[0]? =
        some m) :=
  completion_frame exAwaiting.app 1 (.ok 200 "hi there") 0

/-- C4: when an in-flight request fails with an exception, the delivery
step replaces the matched placeholder's text with the fixed fallback
string, lowers `isTyping`, removes exactly that request from the
in-flight set without creating any new one (no retry), and — the
continuation being a total function into states — propagates nothing to
any caller; the failure is terminal for that turn. -/
theorem failure_is_terminal (sys : System) (i : Nat)
    (req : PendingRequest) (hreq : sys.pending[i]? = some req) :
    (step sys (.complete i .exn)).pending = sys.pending.eraseIdx i ∧
    (step sys (.complete i .exn)).pending.length + 1 =
      sys.pending.length ∧
    (step sys (.complete i .exn)).app.isTyping = false ∧
    (∀ (j : Nat) (m : Message), sys.app.messages[j]? = some m →
      m.id = req.placeholderId →
      (step sys (.complete i .exn)).app.messages[j]? =
        some { m with text := errorFallbackText }) ∧
    (∀ (j : Nat) (m : Message), sys.app.messages[j]? = some m →
      m.id ≠ req.placeholderId →
      (step sys (.complete i .exn)).app.messages[j]? = some m) := by
  have hstep : step sys (.complete i .exn) =
      { app := completeFetch sys.app req.placeholderId .exn,
        pending := sys.pending.eraseIdx i } := by
    simp [step, hreq]
  have hi : i < sys.pending.length := by
    by_contra hcon
    rw [List.getElem?_eq_none (by omega)] at hreq
    exact Option.noConfusion hreq
  rw [hstep]
  refine ⟨rfl, ?_, completeFetch_isTyping_eq _ _ _, ?_, ?_⟩
  · have hlen := List.length_eraseIdx_of_lt hi
    simp only [hlen]
    omega
  · intro j m hm hid
    rw [completeFetch_messages_eq, List.getElem?_map, hm]
    simp [hid, responseTextOf]
  · intro j m hm hid
    rw [completeFetch_messages_eq, List.getElem?_map, hm]
    simp [hid]

/-- C4 witness: instantiating the terminal-failure theorem at the
concrete awaiting state, failing its single in-flight request. -/
theorem failure_is_terminal_witness :
    (step exAwaiting (.complete 0 .exn)).pending =
      exAwaiting.pending.eraseIdx 0 ∧
    (step exAwaiting (.complete 0 .exn)).pending.length + 1 =
      exAwaiting.pending.length ∧
    (step exAwaiting (.complete 0 .exn)).app.isTyping = false ∧
    (∀ (j : Nat) (m : Message), exAwaiting.app.messages[j]? = some m →
      m.id = 1 →
      (step exAwaiting (.complete 0 .exn)).app.messages[j]? =
        some { m with text := errorFallbackText }) ∧
    (∀ (j : Nat) (m : Message), exAwaiting.app.messages[j]? = some m →
      m.id ≠ 1 →
      (step exAwaiting (.complete 0 .exn)).app.messages[j]? = some m) :=
  failure_is_terminal exAwaiting 0
    { placeholderId := 1, userText := "hello" } (by decide)

/-- C7: two submissions `a` then `b`, both in flight, whose requests
complete in the reverse order (`b`'s outcome is delivered first), still
end with the message sequence `[User a, Assistant ra, User b,
Assistant rb]` and no request outstanding: positions are fixed at
insertion time, and completion order only determines which placeholder
is filled first. -/
theorem out_of_order_completion_keeps_positions
    (a b ra rb : String) (sa sb : Nat)
    (ha : jsTrim a ≠ "") (hb : jsTrim b ≠ "") :
    ((run [.setInput a, .submit, .setInput b, .submit,
        .complete 1 (.ok sb rb), .complete 0 (.ok sa ra)]).app.messages.map
      (fun m => (m.text, m.isUser)) =
      [(a, true), (ra, false), (b, true), (rb, false)]) ∧
    (run [.setInput a, .submit, .setInput b, .submit,
        .complete 1 (.ok sb rb), .complete 0 (.ok sa ra)]).pending = [] := by
  simp [run, step, init, handleSendMessage, completeFetch, ha, hb,
    List.eraseIdx]

/-- C7 witness: instantiating the out-of-order completion theorem at
the concrete submissions `"a"` then `"b"` with results `"ra"` and
`"rb"`. -/
theorem out_of_order_completion_keeps_positions_witness :
    ((run [.setInput "a", .submit, .setInput "b", .submit,
        .complete 1 (.ok 200 "rb"), .complete 0 (.ok 200 "ra")]).app.messages.map
      (fun m => (m.text, m.isUser)) =
      [("a", true), ("ra", false), ("b", true), ("rb", false)]) ∧
    (run [.setInput "a", .submit, .setInput "b", .submit,
        .complete 1 (.ok 200 "rb"), .complete 0 (.ok 200 "ra")]).pending =
      [] :=
  out_of_order_completion_keeps_positions "a" "b" "ra" "rb" 200 200
    (by decide) (by decide)

/-- C9 counterexample: submit `"a"`, then `"b"`, then deliver only the
first request's outcome.  The `finally` block of the completed request
lowers `isTyping` even though the second request is still in flight, so
the flag is false while a request is outstanding — refuting the claim
that the flag is true whenever at least one request is outstanding. -/
theorem typing_flag_clears_while_request_outstanding :
    (run [.setInput "a", .submit, .setInput "b", .submit,
        .complete 0 (.ok 200 "first response")]).pending ≠ [] ∧
    (run [.setInput "a", .submit, .setInput "b", .submit,
        .complete 0 (.ok 200 "first response")]).app.isTyping = false := by
  decide

/-- C9 as amended: `isTyping` is raised by each accepted submission and
lowered by the `finally` block of each delivered completion, regardless
of how many other requests remain in flight; it therefore tracks the
most recent of these events, not the existence of an outstanding
request. -/
theorem typing_flag_per_event (s : AppState) (sys : System) (i : Nat)
    (outcome : FetchOutcome) (req : PendingRequest)
    (hacc : jsTrim s.inputValue ≠ "")
    (hreq : sys.pending[i]? = some req) :
    (handleSendMessage s).1.isTyping = true ∧
    (step sys (.complete i outcome)).app.isTyping = false := by
  constructor
  · simp [handleSendMessage, hacc]
  · simp [step, hreq, completeFetch_isTyping_eq]

/-- C9 amended witness: instantiating the per-event flag theorem at the
`"hello"` input state and the concrete awaiting state. -/
theorem typing_flag_per_event_witness :
    (handleSendMessage exHello).1.isTyping = true ∧
    (step exAwaiting (.complete 0 (.ok 200 "hi there"))).app.isTyping =
      false :=
  typing_flag_per_event exHello exAwaiting 0 (.ok 200 "hi there")
    { placeholderId := 1, userText := "hello" } (by decide) (by decide)

/-- C6 counterexample: submit `"x"` and deliver an HTTP 500 response
whose body reads successfully.  The code never inspects the status
code, so the placeholder receives the response body verbatim, not the
fixed fallback string — refuting the claim that every non-2xx response
is collapsed to the fallback text. -/
theorem non2xx_keeps_body_counterexample :
    ((run [.setInput "x", .submit,
        .complete 0 (.ok 500 "upstream exploded")]).app.messages.map
      Message.text = ["x", "upstream exploded"]) ∧
    "upstream exploded" ≠ errorFallbackText ∧
    (run [.setInput "x", .submit,
        .complete 0 (.ok 500 "upstream exploded")]).app.isTyping = false := by
  decide

/-- C6 as amended: the single recognized failure class is an exception
raised during the request or body read; every such exception is
collapsed to the same fixed fallback text.  A response that completes
with a readable body — whatever its HTTP status, non-2xx included — is
not a failure: its body is installed verbatim. -/
theorem failure_class_is_exception_only (s : AppState) (pid : Nat)
    (j : Nat) (m : Message)
    (hm : s.messages[j]? = some m) (hid : m.id = pid) :
    ((completeFetch s pid .exn).messages[j]? =
      some { m with text := errorFallbackText }) ∧
    (∀ status body : _,
      (completeFetch s pid (.ok status body)).messages[j]? =
        some { m with text := body }) ∧
    (completeFetch s pid .exn).isTyping = false := by
  refine ⟨?_, ?_, completeFetch_isTyping_eq _ _ _⟩
  · rw [completeFetch_messages_eq, List.getElem?_map, hm]
    simp [hid, responseTextOf]
  · intro status body
    rw [completeFetch_messages_eq, List.getElem?_map, hm]
    simp [hid, responseTextOf]

/-- C6 amended witness: instantiating the exception-only failure-class
theorem at the concrete awaiting state's placeholder. -/
theorem failure_class_is_exception_only_witness :
    ((completeFetch exAwaiting.app 1 .exn).messages[1]? =
      some { id := 1, text := errorFallbackText, isUser := false,
             timestamp := 0 }) ∧
    (∀ status body : _,
      (completeFetch exAwaiting.app 1 (.ok status body)).messages[1]? =
        some { id := 1, text := body, isUser := false, timestamp := 0 }) ∧
    (completeFetch exAwaiting.app 1 .exn).isTyping = false :=
  failure_class_is_exception_only exAwaiting.app 1 1
    { id := 1, text := "", isUser := false, timestamp := 0 }
    (by decide) (by decide)

/-- C10: a completed exchange installs the response body into the
placeholder verbatim whatever the HTTP status code — the completion is
literally the same state for any two statuses — and the fixed fallback
text is installed exactly on the exception path. -/
theorem body_verbatim_status_ignored (s : AppState)
    (pid status status' : Nat) (body : String) (j : Nat) (m : Message)
    (hm : s.messages[j]? = some m) (hid : m.id = pid) :
    completeFetch s pid (.ok status body) =
      completeFetch s pid (.ok status' body) ∧
    ((completeFetch s pid (.ok status body)).messages[j]? =
      some { m with text := body }) ∧
    ((completeFetch s pid .exn).messages[j]? =
      some { m with text := errorFallbackText }) := by
  refine ⟨rfl, ?_, ?_⟩ <;>
    rw [completeFetch_messages_eq, List.getElem?_map, hm] <;>
    simp [hid, responseTextOf]

/-- C10 witness: instantiating the status-blind body theorem at the
concrete awaiting state's placeholder with statuses 404 and 500. -/
theorem body_verbatim_status_ignored_witness :
    completeFetch exAwaiting.app 1 (.ok 404 "not found page") =
      completeFetch exAwaiting.app 1 (.ok 500 "not found page") ∧
    ((completeFetch exAwaiting.app 1 (.ok 404 "not found page")).messages[1]? =
      some { id := 1, text := "not found page", isUser := false,
             timestamp := 0 }) ∧
    ((completeFetch exAwaiting.app 1 .exn).messages[1]? =
      some { id := 1, text := errorFallbackText, isUser := false,
             timestamp := 0 }) :=
  body_verbatim_status_ignored exAwaiting.app 1 404 500 "not found page" 1
    { id := 1, text := "", isUser := false, timestamp := 0 }
    (by decide) (by decide)

/-- C5: one run of the revealer on `fullText` of length `N` emits
exactly the `N + 1` prefixes of lengths `0, 1, …, N` in strictly
increasing length order (so they are pairwise distinct), beginning with
the empty prefix whatever the previously displayed state was (the reset
on `fullText` change), and ending at the full text, where it stops —
the emission list is finite, so there is no looping.  When `fullText`
is empty the run emits only the empty string and stays there. -/
theorem revealer_emits_strict_prefix_chain (prior fullText : List Char) :
    typewriterRun prior fullText =
      (List.range (fullText.length + 1)).map (fun k => fullText.take k) ∧
    (typewriterRun prior fullText).length = fullText.length + 1 ∧
    (typewriterRun prior fullText).head? = some [] ∧
    (typewriterRun prior fullText).getLast? = some fullText ∧
    List.Chain' (fun x y => x.length < y.length)
      (typewriterRun prior fullText) ∧
    (typewriterRun prior fullText).Nodup ∧
    (fullText = [] → typewriterRun prior fullText = [[]]) := by
  rw [typewriterRun_eq]
  refine ⟨rfl, ?_, ?_, ?_, ?_, ?_, ?_⟩
  · rw [List.length_map, List.length_range]
  · rw [List.head?_map, List.range_succ_eq_map]
    rfl
  · rw [List.range_succ, List.map_append, List.map_singleton,
      List.getLast?_concat, List.take_length]
  · rw [List.chain'_map, List.chain'_range_succ]
    intro m hm
    rw [List.length_take, List.length_take]
    omega
  · refine List.Nodup.map_on ?_ (List.nodup_range _)
    intro x hx y hy hxy
    rw [List.mem_range] at hx hy
    have := congrArg List.length hxy
    rw [List.length_take, List.length_take] at this
    omega
  · intro h
    rw [h]
    rfl

/-- C5 witness: instantiating the revealer theorem at the two-character
text `"hi"` with a stale prior display, checking the emitted prefix
chain concretely. -/
theorem revealer_emits_strict_prefix_chain_witness :
    typewriterRun "stale".data "hi".data =
      (List.range ("hi".data.length + 1)).map
        (fun k => "hi".data.take k) ∧
    (typewriterRun "stale".data "hi".data).length =
      "hi".data.length + 1 ∧
    (typewriterRun "stale".data "hi".data).head? = some [] ∧
    (typewriterRun "stale".data "hi".data).getLast? = some "hi".data ∧
    List.Chain' (fun x y => x.length < y.length)
      (typewriterRun "stale".data "hi".data) ∧
    (typewriterRun "stale".data "hi".data).Nodup ∧
    ("hi".data = [] → typewriterRun "stale".data "hi".data = [[]]) :=
  revealer_emits_strict_prefix_chain "stale".data "hi".data

end KetonAI
